import Mathlib

/-!
# Verification of the weld C codegen core

Shallow embedding of the runtime semantics of the routines emitted by the
weld C/LLVM code generator (`src/weld/src/codegen/c/`):

* the merger builder (`builder/merger.rs`): `gen_new`, `gen_merge`
  (scalar and SIMD variants) and `gen_result`;
* the vector type (`vector.rs`): `gen_new`, `gen_slice`, `gen_extend`,
  `define_size`, over an explicit block memory model of the run allocator;
* the intrinsics registry (`intrinsic.rs`): `add`, `get`, `call`,
  `mappings`, `populate_defaults` and `llvm_numeric`.

Machine integers are embedded as `Nat` bit patterns (reduced mod `2 ^ 64`)
or as `Int` with explicit wrap-around where the generated code can
overflow; signed and unsigned comparisons are made explicit.
-/

namespace Weld

/-- The SIMD width used by the code generator (`LLVM_VECTOR_WIDTH`).
Modelled from the spec: the width constant lives outside the shown core
(`codegen/c/mod.rs`); the spec's testable properties fix WIDTH = 4. -/
abbrev WIDTH : Nat := 4

/-- Scalar kinds, as matched exhaustively in `Intrinsics::llvm_numeric`
(`intrinsic.rs` lines 117-129). -/
inductive ScalarKind where
| Bool
| I8
| I16
| I32
| I64
| U8
| U16
| U32
| U64
| F32
| F64
deriving DecidableEq

/-- Binary operator tags relevant to the merger builder.
Modelled from the spec: `BinOpKind` is defined in the AST module outside
the shown core; the spec names add, multiply, min and max as the
operators with identities. -/
inductive BinOpKind where
| Add
| Multiply
| Min
| Max
deriving DecidableEq

/-- Smallest value of an integer scalar kind, as a mathematical integer.
Modelled from the spec: used only to express "the kind's minimal/maximal
value" for min/max identities; float kinds are outside the `Int` carrier. -/
def kindMin : ScalarKind → Option Int
| ScalarKind.I8 => some (-(2 ^ 7))
| ScalarKind.I16 => some (-(2 ^ 15))
| ScalarKind.I32 => some (-(2 ^ 31))
| ScalarKind.I64 => some (-(2 ^ 63))
| ScalarKind.U8 => some 0
| ScalarKind.U16 => some 0
| ScalarKind.U32 => some 0
| ScalarKind.U64 => some 0
| _ => none

/-- Largest value of an integer scalar kind, as a mathematical integer.
Modelled from the spec, companion of `kindMin`. -/
def kindMax : ScalarKind → Option Int
| ScalarKind.I8 => some (2 ^ 7 - 1)
| ScalarKind.I16 => some (2 ^ 15 - 1)
| ScalarKind.I32 => some (2 ^ 31 - 1)
| ScalarKind.I64 => some (2 ^ 63 - 1)
| ScalarKind.U8 => some (2 ^ 8 - 1)
| ScalarKind.U16 => some (2 ^ 16 - 1)
| ScalarKind.U32 => some (2 ^ 32 - 1)
| ScalarKind.U64 => some (2 ^ 64 - 1)
| _ => none

/-- The identity element of a binary operator at an integer scalar kind.
Modelled from the spec: `binop_identity` is defined in `CodeGenExt`
outside the shown core; the spec states the identity is 0 for add, 1 for
multiply, and the kind's minimal/maximal value for max/min. -/
def binop_identity : BinOpKind → ScalarKind → Option Int
| BinOpKind.Add, k => if (kindMin k).isSome then some 0 else none
| BinOpKind.Multiply, k => if (kindMin k).isSome then some 1 else none
| BinOpKind.Min, k => kindMax k
| BinOpKind.Max, k => kindMin k

/-- Runtime value of a merger, mirroring the struct created in
`Merger::define` (`merger.rs` lines 68-70): field 0 (`SCALAR_INDEX`) is
the scalar accumulator, field 1 (`VECTOR_INDEX`) is a WIDTH-wide SIMD
register of accumulators. -/
structure MergerState (α : Type) where
  scalar : α
  lanes : Fin WIDTH → α
deriving DecidableEq

/-- Runtime semantics of the function emitted by `Merger::gen_new`
(`merger.rs` lines 88-129): the scalar field is seeded with the function's
first parameter (`init`) and the vector field with a constant SIMD vector
whose every lane is `binop_identity(op, scalar_kind)`. The generic
`identity` argument stands for that constant. -/
def mergerNewRaw {α : Type} (identity : α) (init : α) : MergerState α :=
  { scalar := init, lanes := fun _ => identity }

/-- `Merger::gen_new` at an integer scalar kind, with the identity
obtained from `binop_identity` exactly as in the source (`merger.rs`
line 101); `none` when the identity is outside the `Int` carrier. -/
def mergerGenNew (op : BinOpKind) (kind : ScalarKind) (init : Int) :
    Option (MergerState Int) :=
  (binop_identity op kind).map (fun id => mergerNewRaw id init)

/-- Runtime semantics of the scalar merge function emitted by
`Merger::gen_merge_internal` at `gep_index = SCALAR_INDEX`
(`merger.rs` lines 135-163, 193-208): load the scalar field, combine it
with the argument through the operator `f`, store it back. -/
def mergerMerge {α : Type} (f : α → α → α) (m : MergerState α) (v : α) :
    MergerState α :=
  { m with scalar := f m.scalar v }

/-- Runtime semantics of the SIMD merge function emitted by
`Merger::gen_merge_internal` at `gep_index = VECTOR_INDEX`
(`merger.rs` lines 135-163, 172-192): load the vector field, combine it
lane-wise with the argument through the operator `f`, store it back. -/
def mergerVmerge {α : Type} (f : α → α → α) (m : MergerState α)
    (v : Fin WIDTH → α) : MergerState α :=
  { m with lanes := fun i => f (m.lanes i) (v i) }

/-- Runtime semantics of the function emitted by `Merger::gen_result`
(`merger.rs` lines 211-259): start from the scalar field, then for
`i in 0..WIDTH` in ascending order extract lane `i` of the vector field
and combine it into the accumulator through the operator `f`. -/
def mergerResult {α : Type} (f : α → α → α) (m : MergerState α) : α :=
  (List.finRange WIDTH).foldl (fun acc i => f acc (m.lanes i)) m.scalar

/-- Two's-complement wrap of a mathematical integer into `i32`. -/
def wrap32 (x : Int) : Int :=
  (x + 2 ^ 31) % 2 ^ 32 - 2 ^ 31

/-- `gen_binop` for `Add` at a signed 32-bit integer kind.
Modelled from the spec: `gen_binop` lives in `codegen/c/numeric.rs`
outside the shown core; for integer kinds the scalar and SIMD paths both
perform two's-complement (wrap-around) addition. -/
def i32add (a b : Int) : Int :=
  wrap32 (a + b)

/-- One merge request issued against a merger: either a scalar merge or a
WIDTH-wide SIMD merge, dispatched by `Merger::gen_merge` on the LLVM type
of the value (`merger.rs` line 171). -/
inductive MergeOp where
| scalarMerge (v : Int)
| vectorMerge (v : Fin WIDTH → Int)

/-- Apply one merge request to a merger state with operator `i32add`. -/
def applyMergeOp (m : MergerState Int) : MergeOp → MergerState Int
| MergeOp.scalarMerge v => mergerMerge i32add m v
| MergeOp.vectorMerge v => mergerVmerge i32add m v

/-- Apply a sequence of merge requests in order. -/
def applyMergeOps (m : MergerState Int) (ops : List MergeOp) :
    MergerState Int :=
  ops.foldl applyMergeOp m

/-- The SIMD constant `[4, 5, 6, 7]`. -/
def vec4567 : Fin WIDTH → Int :=
  fun i => 4 + (i : Nat)

/-- The reference merge sequence of the merger monoid law: scalar merges
of 1, 2, 3 and one SIMD merge of `[4, 5, 6, 7]`. -/
def monoidOps : List MergeOp :=
  [MergeOp.scalarMerge 1, MergeOp.scalarMerge 2, MergeOp.scalarMerge 3,
   MergeOp.vectorMerge vec4567]

/-! ## Vector runtime semantics over a block memory model -/

/-- A byte of run-allocator memory: `none` is uninitialized. -/
abbrev MByte : Type := Option Nat

/-- A pointer into the run's memory: block index and byte offset. -/
abbrev Ptr : Type := Nat × Nat

/-- The run allocator's memory: a list of allocated blocks of bytes.
Blocks are appended by `weld_runst_malloc` / `weld_runst_realloc`. -/
structure RunMemory where
  blocks : List (List MByte)
deriving DecidableEq

/-- Semantics of the `weld_runst_malloc` intrinsic as the generated code
relies on it: allocate a fresh block of `size` uninitialized bytes and
return a pointer to its start. -/
def wmalloc (mem : RunMemory) (size : Nat) : RunMemory × Ptr :=
  ({ blocks := mem.blocks ++ [List.replicate size none] },
   (mem.blocks.length, 0))

/-- Semantics of the `weld_runst_realloc` intrinsic as the generated code
relies on it: given the base pointer of a block, produce a block of
`size` bytes whose first `min size (old length)` bytes are the old
contents (C `realloc` semantics, possibly moving the allocation). -/
def wrealloc (mem : RunMemory) (p : Ptr) (size : Nat) : RunMemory × Ptr :=
  let old := (mem.blocks.getD p.1 []).drop p.2
  let data := old.take size ++ List.replicate (size - old.length) (none : MByte)
  ({ blocks := mem.blocks ++ [data] }, (mem.blocks.length, 0))

/-- Read `n` bytes of memory starting at `p`. -/
def readBytes (mem : RunMemory) (p : Ptr) (n : Nat) : List MByte :=
  ((mem.blocks.getD p.1 []).drop p.2).take n

/-- Runtime value of a vector, mirroring the struct created in
`Vector::define` (`vector.rs` lines 280-283): field 0 (`POINTER_INDEX`)
is the data pointer, field 1 (`SIZE_INDEX`) the `i64` size, embedded as
its unsigned 64-bit pattern. -/
structure VectorVal where
  ptr : Ptr
  size : Nat
deriving DecidableEq

/-- Signed value of an unsigned 64-bit pattern (two's complement). -/
def toSigned (x : Nat) : Int :=
  if x < 2 ^ 63 then (x : Int) else (x : Int) - 2 ^ 64

/-- The LLVM `icmp sgt` predicate on 64-bit patterns (`LLVMIntSGT`). -/
def i64sgt (a b : Nat) : Bool :=
  toSigned b < toSigned a

/-- Runtime semantics of the function emitted by `Vector::gen_new`
(`vector.rs` lines 313-358): multiply the element size by the requested
size (64-bit multiply), request that many bytes from `weld_runst_malloc`,
and build the vector value `{ pointer, size }`. `elemSize` is the byte
size of the element type (`size_of(elem_ty)`). -/
def vectorNew (elemSize : Nat) (mem : RunMemory) (size : Nat) :
    RunMemory × VectorVal :=
  let allocSize := elemSize * size % 2 ^ 64
  let (mem2, bytes) := wmalloc mem allocSize
  (mem2, { ptr := bytes, size := size })

/-- Runtime semantics of the function emitted by `Vector::define_size`
(`vector.rs` lines 603-636): extract the `SIZE_INDEX` field. -/
def vectorSize (v : VectorVal) : Nat :=
  v.size

/-- Runtime semantics of the function emitted by `Vector::gen_slice`
(`vector.rs` lines 509-557): `remaining = size(v) - index` (64-bit
subtraction), the new size is `remaining` if `requested >u remaining`
(`LLVMIntUGT`) and `requested` otherwise, and the data pointer is the old
data pointer offset by `index` elements; no allocation is performed. -/
def vectorSlice (elemSize : Nat) (v : VectorVal) (index size : Nat) :
    VectorVal :=
  let remaining := (v.size + 2 ^ 64 - index % 2 ^ 64) % 2 ^ 64
  let newSize := if remaining < size then remaining else size
  { ptr := (v.ptr.1, v.ptr.2 + index * elemSize), size := newSize }

/-- Runtime semantics of the function emitted by `Vector::gen_extend`
(`vector.rs` lines 678-778): if `requested >s size(v)` (`LLVMIntSGT`),
reallocate the data to `requested * elemSize` bytes through
`weld_runst_realloc` and return `{ new pointer, requested }`; otherwise
return the input vector unchanged. -/
def vectorExtend (elemSize : Nat) (mem : RunMemory) (v : VectorVal)
    (size : Nat) : RunMemory × VectorVal :=
  if i64sgt size v.size then
    let allocSize := size * elemSize % 2 ^ 64
    let (mem2, bytes) := wrealloc mem v.ptr allocSize
    (mem2, { ptr := bytes, size := size })
  else
    (mem, v)

/-- Well-formedness of a vector value in a memory (the data-model
invariant of the spec): the pointer is the base of a live block holding
exactly `size * elemSize` bytes, and the size is a non-negative `i64`. -/
def VectorVal.wf (mem : RunMemory) (elemSize : Nat) (v : VectorVal) : Prop :=
  v.ptr.2 = 0 ∧
  v.size < 2 ^ 63 ∧
  ∃ blk, mem.blocks[v.ptr.1]? = some blk ∧ blk.length = v.size * elemSize

/-! ## The intrinsics registry -/

/-- LLVM types appearing in intrinsic signatures (`intrinsic.rs`). -/
inductive LTy where
| i1
| i8
| i32
| i64
| wbool
| voidTy
| ptrI8
| runHandle
deriving DecidableEq

/-- A function declaration added to the module by `LLVMAddFunction`:
its name and its parameter types (so `LLVMCountParams` is the length of
`argTys`). -/
structure FuncVal where
  fname : String
  retTy : LTy
  argTys : List LTy
deriving DecidableEq

/-- The host runtime functions whose addresses the default intrinsics are
bound to (`crate::runtime::ffi`, `intrinsic.rs` lines 555-721). -/
inductive HostFn where
| init
| get_result
| set_result
| malloc
| realloc
| free
| get_errno
| set_errno
| assert
| print
deriving DecidableEq

/-- A single intrinsic entry (`intrinsic.rs` lines 40-43): either a
builtin (the target supplies the implementation) or a declaration bound
to a host function pointer. -/
inductive Intrinsic where
| Builtin (val : FuncVal)
| FunctionPointer (val : FuncVal) (p : HostFn)
deriving DecidableEq

/-- `Intrinsic::value` (`intrinsic.rs` lines 47-51). -/
def Intrinsic.value : Intrinsic → FuncVal
| Intrinsic.Builtin v => v
| Intrinsic.FunctionPointer v _ => v

/-- The registry state: the `intrinsics` name-to-entry map, embedded as
an association list in insertion order. -/
abbrev Intrinsics : Type := List (String × Intrinsic)

/-- `Intrinsics::get` (`intrinsic.rs` lines 134-136). -/
def Intrinsics.get (reg : Intrinsics) (key : String) : Option FuncVal :=
  (reg.lookup key).map Intrinsic.value

/-- `Intrinsics::add` (`intrinsic.rs` lines 142-158): if the name is not
registered, add a function declaration with the given return and argument
types as a `Builtin` entry and return `true`; otherwise return `false`
and leave the registry unchanged. -/
def Intrinsics.add (reg : Intrinsics) (name : String) (retTy : LTy)
    (argTys : List LTy) : Bool × Intrinsics :=
  if (reg.lookup name).isSome then
    (false, reg)
  else
    (true, reg ++ [(name, Intrinsic.Builtin ⟨name, retTy, argTys⟩)])

/-- The two fatal exits of `Intrinsics::call`: the `panic!` on an
argument-count mismatch and the `unreachable!` on an unknown name. -/
inductive CallFailure where
| arityMismatch
| unknownIntrinsic
deriving DecidableEq

/-- The call instruction built by `LLVMBuildCall`: the callee and the
exact argument values passed. Argument values are opaque tokens. -/
structure CallInst where
  callee : FuncVal
  args : List Nat
deriving DecidableEq

/-- `Intrinsics::call` (`intrinsic.rs` lines 163-184): look the name up;
if found and the argument count equals the callee's parameter count,
build the call with exactly the given arguments; on a count mismatch
`panic!`; on an unknown name `unreachable!`. -/
def Intrinsics.call (reg : Intrinsics) (name : String) (args : List Nat) :
    Except CallFailure CallInst :=
  match reg.lookup name with
  | some entry =>
      let func := entry.value
      if args.length ≠ func.argTys.length then
        Except.error CallFailure.arityMismatch
      else
        Except.ok { callee := func, args := args }
  | none => Except.error CallFailure.unknownIntrinsic

/-- `Intrinsics::mappings` (`intrinsic.rs` lines 86-94): the
name-to-host-pointer pairs of the `FunctionPointer` entries; `Builtin`
entries are filtered out. -/
def Intrinsics.mappings (reg : Intrinsics) : List (String × HostFn) :=
  reg.filterMap fun e =>
    match e.2 with
    | Intrinsic.FunctionPointer _ p => some (e.1, p)
    | Intrinsic.Builtin _ => none

/-- The registry built by `Intrinsics::populate_defaults`
(`intrinsic.rs` lines 471-761), entries in insertion order with the
signatures and host bindings of the source. -/
def defaultIntrinsics : Intrinsics :=
  [("weld_runst_init",
    Intrinsic.FunctionPointer
      ⟨"weld_runst_init", LTy.runHandle, [LTy.i32, LTy.i64]⟩ HostFn.init),
   ("weld_runst_get_result",
    Intrinsic.FunctionPointer
      ⟨"weld_runst_get_result", LTy.ptrI8, [LTy.runHandle]⟩ HostFn.get_result),
   ("weld_runst_set_result",
    Intrinsic.FunctionPointer
      ⟨"weld_runst_set_result", LTy.voidTy, [LTy.runHandle, LTy.ptrI8]⟩
      HostFn.set_result),
   ("weld_runst_malloc",
    Intrinsic.FunctionPointer
      ⟨"weld_runst_malloc", LTy.ptrI8, [LTy.runHandle, LTy.i64]⟩ HostFn.malloc),
   ("weld_runst_realloc",
    Intrinsic.FunctionPointer
      ⟨"weld_runst_realloc", LTy.ptrI8, [LTy.runHandle, LTy.ptrI8, LTy.i64]⟩
      HostFn.realloc),
   ("weld_runst_free",
    Intrinsic.FunctionPointer
      ⟨"weld_runst_free", LTy.voidTy, [LTy.runHandle, LTy.ptrI8]⟩ HostFn.free),
   ("weld_runst_get_errno",
    Intrinsic.FunctionPointer
      ⟨"weld_runst_get_errno", LTy.i64, [LTy.runHandle]⟩ HostFn.get_errno),
   ("weld_runst_set_errno",
    Intrinsic.FunctionPointer
      ⟨"weld_runst_set_errno", LTy.voidTy, [LTy.runHandle, LTy.i64]⟩
      HostFn.set_errno),
   ("weld_runst_assert",
    Intrinsic.FunctionPointer
      ⟨"weld_runst_assert", LTy.wbool, [LTy.runHandle, LTy.wbool]⟩
      HostFn.assert),
   ("weld_runst_print",
    Intrinsic.FunctionPointer
      ⟨"weld_runst_print", LTy.voidTy, [LTy.runHandle, LTy.ptrI8]⟩
      HostFn.print),
   ("llvm.memcpy.p0i8.p0i8.i64",
    Intrinsic.Builtin
      ⟨"llvm.memcpy.p0i8.p0i8.i64", LTy.voidTy,
       [LTy.ptrI8, LTy.ptrI8, LTy.i64, LTy.i32, LTy.i1]⟩),
   ("llvm.memset.p0i8.i64",
    Intrinsic.Builtin
      ⟨"llvm.memset.p0i8.i64", LTy.voidTy,
       [LTy.ptrI8, LTy.i8, LTy.i64, LTy.i32, LTy.i1]⟩)]

/-- `Intrinsics::llvm_numeric` (`intrinsic.rs` lines 110-131): build
`llvm.<name>.`, append `v<WIDTH>` when `simd` is set, then append the
type suffix selected from the scalar kind. -/
def llvm_numeric (name : String) (kind : ScalarKind) (simd : Bool) :
    String :=
  let base := "llvm." ++ name ++ "."
  let base := if simd then base ++ "v" ++ toString WIDTH else base
  base ++
    match kind with
    | ScalarKind.Bool => "i1"
    | ScalarKind.I8 => "i32"
    | ScalarKind.I16 => "i16"
    | ScalarKind.I32 => "i32"
    | ScalarKind.I64 => "i64"
    | ScalarKind.U8 => "i32"
    | ScalarKind.U16 => "i16"
    | ScalarKind.U32 => "i32"
    | ScalarKind.U64 => "i64"
    | ScalarKind.F32 => "f32"
    | ScalarKind.F64 => "f64"

/-! ## Theorems -/

/-- Merge requests commute with one another: scalar merges and SIMD
merges touch disjoint fields of the merger, and two's-complement
addition is commutative and associative. -/
theorem applyMergeOp_right_comm (m : MergerState Int) (o p : MergeOp) :
    applyMergeOp (applyMergeOp m o) p = applyMergeOp (applyMergeOp m p) o := by
  cases o <;> cases p <;>
    simp only [applyMergeOp, mergerMerge, mergerVmerge, MergerState.mk.injEq,
      i32add, wrap32] <;>
    refine ⟨?_, ?_⟩ <;>
    first
    | trivial
    | omega
    | (funext i; omega)

/-- C1, counterexample: for operator add at kind I32 the identity is 0,
yet the merger built by `gen_new` with `initElement = 5` has scalar lane
5, not the identity — `gen_new` stores its `init` parameter, not the
identity, into the scalar lane (`merger.rs` lines 105-111). -/
theorem mergerGenNew_scalar_not_identity :
    binop_identity BinOpKind.Add ScalarKind.I32 = some 0 ∧
    (mergerGenNew BinOpKind.Add ScalarKind.I32 5).map MergerState.scalar = some 5 ∧
    (mergerGenNew BinOpKind.Add ScalarKind.I32 5).map MergerState.scalar ≠ some 0 := by
  refine ⟨rfl, rfl, ?_⟩
  decide

/-- C1, amended: the merger produced by `gen_new` holds the `initElement`
argument in the scalar lane and the operator's identity element in every
lane of the WIDTH-wide vector lane; both lanes hold the identity exactly
when `initElement` is the identity. -/
theorem mergerGenNew_scalar_init_vector_identity (op : BinOpKind)
    (kind : ScalarKind) (init id : Int)
    (h : binop_identity op kind = some id) :
    mergerGenNew op kind init = some { scalar := init, lanes := fun _ => id } := by
  simp [mergerGenNew, h, mergerNewRaw]

/-- Witness for the amended C1 theorem at operator add, kind I32,
`initElement = 5`. -/
theorem mergerGenNew_scalar_init_vector_identity_w :
    binop_identity BinOpKind.Add ScalarKind.I32 = some 0 ∧
    mergerGenNew BinOpKind.Add ScalarKind.I32 5 =
      some { scalar := 5, lanes := fun _ => 0 } :=
  ⟨by decide,
   mergerGenNew_scalar_init_vector_identity BinOpKind.Add ScalarKind.I32 5 0 (by decide)⟩

/-- C2: for the integer merger with operator add seeded by `gen_new` with
`initElement = 0` (both lanes at the identity 0), every interleaving of
the three scalar merges of 1, 2, 3 and the one WIDTH = 4 SIMD merge of
`[4, 5, 6, 7]` makes `result` return 28. -/
theorem merger_monoid_law (ops : List MergeOp) (m : MergerState Int)
    (hperm : ops.Perm monoidOps)
    (hm : mergerGenNew BinOpKind.Add ScalarKind.I32 0 = some m) :
    mergerResult i32add (applyMergeOps m ops) = 28 := by
  have hm' : m = { scalar := 0, lanes := fun _ => 0 } := by
    simp [mergerGenNew, binop_identity, kindMin, mergerNewRaw] at hm
    exact hm.symm
  subst hm'
  unfold applyMergeOps
  rw [hperm.foldl_eq' (fun x _ y _ z => applyMergeOp_right_comm z x y) _]
  decide

/-- Witness for C2 at the reference interleaving itself. -/
theorem merger_monoid_law_w :
    mergerGenNew BinOpKind.Add ScalarKind.I32 0 =
      some { scalar := 0, lanes := fun _ => 0 } ∧
    mergerResult i32add
      (applyMergeOps { scalar := 0, lanes := fun _ => 0 } monoidOps) = 28 :=
  ⟨by decide, merger_monoid_law monoidOps _ (List.Perm.refl _) (by decide)⟩

/-- C6: `result` folds the scalar lane with the vector lanes in fixed
ascending lane order (lane 0 first, lane WIDTH - 1 last), applying the
operator at each step; being a function of the state, the fold order is
the same on every invocation. -/
theorem merger_result_fold_order {α : Type} (f : α → α → α) (m : MergerState α) :
    mergerResult f m =
      List.foldl f m.scalar [m.lanes 0, m.lanes 1, m.lanes 2, m.lanes 3] := rfl

/-- C5: `new(n)` issues one allocation request of exactly
`n * elemSize` bytes to the run's allocator and returns a vector whose
`size` field reads back as `n`. -/
theorem vectorNew_spec (elemSize : Nat) (mem : RunMemory) (n : Nat)
    (h : elemSize * n < 2 ^ 64) :
    vectorSize (vectorNew elemSize mem n).2 = n ∧
    (vectorNew elemSize mem n).1.blocks =
      mem.blocks ++ [List.replicate (n * elemSize) (none : MByte)] := by
  have h2 : elemSize * n % 2 ^ 64 = elemSize * n := by omega
  refine ⟨rfl, ?_⟩
  simp [vectorNew, wmalloc, h2, Nat.mul_comm]
  omega

/-- Witness for C5: a 4-byte element type and n = 3 request 12 bytes. -/
theorem vectorNew_spec_w :
    (4 : Nat) * 3 < 2 ^ 64 ∧
    vectorSize (vectorNew 4 { blocks := [] } 3).2 = 3 ∧
    (vectorNew 4 { blocks := [] } 3).1.blocks =
      [] ++ [List.replicate (3 * 4) (none : MByte)] :=
  ⟨by decide, (vectorNew_spec 4 { blocks := [] } 3 (by decide)).1,
   (vectorNew_spec 4 { blocks := [] } 3 (by decide)).2⟩

/-- C4: for `0 ≤ i ≤ size(v)`, the vector returned by `slice(v, i, s)`
has size `min s (size(v) - i)` and its data pointer is v's data pointer
offset by `i` elements; no allocation takes place (the routine does not
touch the run memory at all). -/
theorem vectorSlice_spec (elemSize : Nat) (v : VectorVal) (i s : Nat)
    (hi : i ≤ v.size) (hv : v.size < 2 ^ 64) :
    vectorSize (vectorSlice elemSize v i s) = min s (v.size - i) ∧
    (vectorSlice elemSize v i s).ptr = (v.ptr.1, v.ptr.2 + i * elemSize) := by
  dsimp only [vectorSlice, vectorSize]
  constructor
  · split <;> omega
  · rfl

/-- Witness for C4: slicing a 5-element vector at index 1 with requested
size 10 clamps to 4 elements and offsets the pointer by one element. -/
theorem vectorSlice_spec_w :
    (1 : Nat) ≤ 5 ∧ (5 : Nat) < 2 ^ 64 ∧
    vectorSize (vectorSlice 4 { ptr := (0, 0), size := 5 } 1 10) = min 10 (5 - 1) ∧
    (vectorSlice 4 { ptr := (0, 0), size := 5 } 1 10).ptr = (0, 0 + 1 * 4) :=
  ⟨by decide, by decide,
   (vectorSlice_spec 4 { ptr := (0, 0), size := 5 } 1 10 (by decide) (by decide)).1,
   (vectorSlice_spec 4 { ptr := (0, 0), size := 5 } 1 10 (by decide) (by decide)).2⟩

/-- Reallocating a well-formed block to a size at least its length
preserves every readable prefix of its contents. -/
theorem wrealloc_reads (mem : RunMemory) (p : Ptr) (size : Nat)
    (blk : List MByte) (hp : p.2 = 0) (hblk : mem.blocks[p.1]? = some blk)
    (hle : blk.length ≤ size) (n : Nat) (hn : n ≤ blk.length) :
    readBytes (wrealloc mem p size).1 (wrealloc mem p size).2 n =
      readBytes mem p n := by
  have hgetD : mem.blocks.getD p.1 [] = blk := by
    simp [List.getD_eq_getD_get?, List.get?_eq_getElem?, hblk]
  simp only [wrealloc, readBytes, hp, List.drop_zero, hgetD]
  rw [List.getD_append_right _ _ _ _ (le_refl _), Nat.sub_self]
  simp only [List.getD_cons_zero, List.drop_zero]
  rw [List.take_of_length_le hle, List.take_append_of_le_length hn]

/-- C3: for a well-formed vector v, `extend(v, s, run)` with
`s ≤ size(v)` returns v itself (same pointer, same size, memory
untouched); with `s > size(v)` it returns a vector whose size field is
exactly `s` and whose first `size(v)` elements (as bytes) are v's
original content, preserved through the reallocation. -/
theorem vectorExtend_spec (elemSize : Nat) (mem : RunMemory) (v : VectorVal)
    (s : Nat) (hwf : v.wf mem elemSize) (hs : s < 2 ^ 63)
    (hmul : s * elemSize < 2 ^ 64) :
    (s ≤ v.size → vectorExtend elemSize mem v s = (mem, v)) ∧
    (v.size < s →
      vectorSize (vectorExtend elemSize mem v s).2 = s ∧
      readBytes (vectorExtend elemSize mem v s).1
          (vectorExtend elemSize mem v s).2.ptr (v.size * elemSize) =
        readBytes mem v.ptr (v.size * elemSize)) := by
  obtain ⟨hp2, hvs, blk, hblk, hlen⟩ := hwf
  have hsgn_s : toSigned s = (s : Int) := by simp [toSigned]; omega
  have hsgn_v : toSigned v.size = (v.size : Int) := by simp [toSigned]; omega
  constructor
  · intro hle
    have hflag : i64sgt s v.size = false := by
      simp [i64sgt, hsgn_s, hsgn_v]
      exact_mod_cast hle
    simp [vectorExtend, hflag]
  · intro hlt
    have hflag : i64sgt s v.size = true := by
      simp [i64sgt, hsgn_s, hsgn_v]
      exact_mod_cast hlt
    have hmod : s * elemSize % 2 ^ 64 = s * elemSize := by omega
    refine ⟨by simp [vectorExtend, hflag, vectorSize], ?_⟩
    have hread := wrealloc_reads mem v.ptr (s * elemSize % 2 ^ 64) blk hp2 hblk
      (by rw [hmod, hlen]; exact Nat.mul_le_mul_right _ (Nat.le_of_lt hlt))
      (v.size * elemSize) (by rw [hlen])
    simpa [vectorExtend, hflag] using hread

/-- Witness for C3 on a 2-element byte vector: extending to 1 is a no-op
and extending to 3 gives size 3 with the two original bytes preserved. -/
theorem vectorExtend_spec_w :
    vectorExtend 1 { blocks := [[some 7, some 8]] } { ptr := (0, 0), size := 2 } 1 =
      ({ blocks := [[some 7, some 8]] }, { ptr := (0, 0), size := 2 }) ∧
    vectorSize
      (vectorExtend 1 { blocks := [[some 7, some 8]] }
        { ptr := (0, 0), size := 2 } 3).2 = 3 ∧
    readBytes
        (vectorExtend 1 { blocks := [[some 7, some 8]] }
          { ptr := (0, 0), size := 2 } 3).1
        (vectorExtend 1 { blocks := [[some 7, some 8]] }
          { ptr := (0, 0), size := 2 } 3).2.ptr (2 * 1) =
      readBytes { blocks := [[some 7, some 8]] } (0, 0) (2 * 1) :=
  ⟨(vectorExtend_spec 1 { blocks := [[some 7, some 8]] }
      { ptr := (0, 0), size := 2 } 1
      ⟨rfl, by decide, [some 7, some 8], rfl, rfl⟩ (by decide) (by decide)).1
      (by decide),
   ((vectorExtend_spec 1 { blocks := [[some 7, some 8]] }
      { ptr := (0, 0), size := 2 } 3
      ⟨rfl, by decide, [some 7, some 8], rfl, rfl⟩ (by decide) (by decide)).2
      (by decide)).1,
   ((vectorExtend_spec 1 { blocks := [[some 7, some 8]] }
      { ptr := (0, 0), size := 2 } 3
      ⟨rfl, by decide, [some 7, some 8], rfl, rfl⟩ (by decide) (by decide)).2
      (by decide)).2⟩

/-- A name absent from the front of an association list is looked up in
the appended tail. -/
theorem lookup_append_of_none {β : Type} (l₁ l₂ : List (String × β)) (a : String)
    (h : l₁.lookup a = none) : (l₁ ++ l₂).lookup a = l₂.lookup a := by
  induction l₁ with
  | nil => simp
  | cons hd tl ih =>
      simp only [List.lookup, List.cons_append] at h ⊢
      cases hbe : (a == hd.1) with
      | true => simp [hbe] at h
      | false =>
          simp only [hbe] at h ⊢
          exact ih h

/-- C8: `add(name, returnType, argTypes)` on an already-registered name
returns false and leaves the registry unchanged; on a fresh name it
returns true and afterwards `get(name)` returns the new handle. -/
theorem intrinsics_add_spec (reg : Intrinsics) (name : String) (retTy : LTy)
    (argTys : List LTy) :
    ((reg.lookup name).isSome → Intrinsics.add reg name retTy argTys = (false, reg)) ∧
    (reg.lookup name = none →
      (Intrinsics.add reg name retTy argTys).1 = true ∧
      Intrinsics.get (Intrinsics.add reg name retTy argTys).2 name =
        some ⟨name, retTy, argTys⟩) := by
  constructor
  · intro h
    simp [Intrinsics.add, h]
  · intro h
    refine ⟨by simp [Intrinsics.add, h], ?_⟩
    simp only [Intrinsics.add, h, Option.isSome_none, Bool.false_eq_true, if_false,
      Intrinsics.get]
    rw [lookup_append_of_none _ _ _ h]
    simp [List.lookup, Intrinsic.value]

/-- Witness for C8: re-adding `weld_runst_init` is a no-op returning
false; adding a fresh name returns true and makes it retrievable. -/
theorem intrinsics_add_spec_w :
    (defaultIntrinsics.lookup "weld_runst_init").isSome ∧
    Intrinsics.add defaultIntrinsics "weld_runst_init" LTy.i32 [] =
      (false, defaultIntrinsics) ∧
    defaultIntrinsics.lookup "my_fn" = none ∧
    (Intrinsics.add defaultIntrinsics "my_fn" LTy.i32 [LTy.i64]).1 = true ∧
    Intrinsics.get (Intrinsics.add defaultIntrinsics "my_fn" LTy.i32 [LTy.i64]).2 "my_fn" =
      some ⟨"my_fn", LTy.i32, [LTy.i64]⟩ :=
  ⟨by decide,
   (intrinsics_add_spec defaultIntrinsics "weld_runst_init" LTy.i32 []).1 (by decide),
   by decide,
   ((intrinsics_add_spec defaultIntrinsics "my_fn" LTy.i32 [LTy.i64]).2 (by decide)).1,
   ((intrinsics_add_spec defaultIntrinsics "my_fn" LTy.i32 [LTy.i64]).2 (by decide)).2⟩

/-- C7: `call(name, args)` aborts generation (returning no value) exactly
when the name is unregistered (`unreachable!`) or the argument count
differs from the registered parameter count (`panic!`); when it succeeds
the built call carries exactly the given argument list, never truncated
or padded. -/
theorem intrinsics_call_spec (reg : Intrinsics) (name : String) (args : List Nat) :
    (reg.lookup name = none →
      Intrinsics.call reg name args = Except.error CallFailure.unknownIntrinsic) ∧
    (∀ e, reg.lookup name = some e → args.length ≠ e.value.argTys.length →
      Intrinsics.call reg name args = Except.error CallFailure.arityMismatch) ∧
    (∀ e, reg.lookup name = some e → args.length = e.value.argTys.length →
      Intrinsics.call reg name args = Except.ok { callee := e.value, args := args }) := by
  refine ⟨fun h => ?_, fun e he hne => ?_, fun e he heq => ?_⟩
  · simp [Intrinsics.call, h]
  · simp [Intrinsics.call, he, hne]
  · simp [Intrinsics.call, he, heq]

/-- Witness for C7: calling `weld_runst_init` with its two arguments
succeeds with exactly those arguments; with one argument it fails
fatally. -/
theorem intrinsics_call_spec_w :
    defaultIntrinsics.lookup "weld_runst_init" =
      some (Intrinsic.FunctionPointer
        ⟨"weld_runst_init", LTy.runHandle, [LTy.i32, LTy.i64]⟩ HostFn.init) ∧
    Intrinsics.call defaultIntrinsics "weld_runst_init" [10, 20] =
      Except.ok { callee := ⟨"weld_runst_init", LTy.runHandle, [LTy.i32, LTy.i64]⟩,
                  args := [10, 20] } ∧
    Intrinsics.call defaultIntrinsics "weld_runst_init" [10] =
      Except.error CallFailure.arityMismatch :=
  ⟨by decide,
   (intrinsics_call_spec defaultIntrinsics "weld_runst_init" [10, 20]).2.2
     (Intrinsic.FunctionPointer
       ⟨"weld_runst_init", LTy.runHandle, [LTy.i32, LTy.i64]⟩ HostFn.init)
     (by decide) rfl,
   (intrinsics_call_spec defaultIntrinsics "weld_runst_init" [10]).2.1
     (Intrinsic.FunctionPointer
       ⟨"weld_runst_init", LTy.runHandle, [LTy.i32, LTy.i64]⟩ HostFn.init)
     (by decide) (by decide)⟩

/-- C9: `mappings()` yields one (name, host pointer) pair per
function-pointer entry and none for builtin entries; on the default
registry it is exactly the ten `weld_runst_*` entries, and the two
memory primitives (`llvm.memcpy.p0i8.p0i8.i64`, `llvm.memset.p0i8.i64`),
being builtins, are excluded. -/
theorem intrinsics_mappings_spec :
    (∀ (reg : Intrinsics) (n : String) (p : HostFn),
      (n, p) ∈ Intrinsics.mappings reg ↔
        ∃ f, (n, Intrinsic.FunctionPointer f p) ∈ reg) ∧
    Intrinsics.mappings defaultIntrinsics =
      [("weld_runst_init", HostFn.init), ("weld_runst_get_result", HostFn.get_result),
       ("weld_runst_set_result", HostFn.set_result), ("weld_runst_malloc", HostFn.malloc),
       ("weld_runst_realloc", HostFn.realloc), ("weld_runst_free", HostFn.free),
       ("weld_runst_get_errno", HostFn.get_errno), ("weld_runst_set_errno", HostFn.set_errno),
       ("weld_runst_assert", HostFn.assert), ("weld_runst_print", HostFn.print)] ∧
    "llvm.memcpy.p0i8.p0i8.i64" ∉ (Intrinsics.mappings defaultIntrinsics).map Prod.fst ∧
    "llvm.memset.p0i8.i64" ∉ (Intrinsics.mappings defaultIntrinsics).map Prod.fst := by
  refine ⟨?_, by decide, by decide, by decide⟩
  intro reg n p
  simp only [Intrinsics.mappings, List.mem_filterMap]
  constructor
  · rintro ⟨⟨a, b⟩, hmem, hsome⟩
    cases b with
    | Builtin f => simp at hsome
    | FunctionPointer f q =>
        simp only [Option.some.injEq, Prod.mk.injEq] at hsome
        obtain ⟨rfl, rfl⟩ := hsome
        exact ⟨f, hmem⟩
  · rintro ⟨f, hmem⟩
    exact ⟨(n, Intrinsic.FunctionPointer f p), hmem, rfl⟩

/-- Witness for C9: the allocator intrinsic appears in the default
mappings. -/
theorem intrinsics_mappings_spec_w :
    ("weld_runst_malloc", HostFn.malloc) ∈ Intrinsics.mappings defaultIntrinsics :=
  (intrinsics_mappings_spec.1 defaultIntrinsics "weld_runst_malloc" HostFn.malloc).2
    ⟨⟨"weld_runst_malloc", LTy.ptrI8, [LTy.runHandle, LTy.i64]⟩, by decide⟩

/-- C10: `llvm_numeric` maps the 8-bit kinds I8 and U8 to the same
type suffix "i32" as the 32-bit kinds I32 and U32 (not to an "i8"
suffix), in both the scalar and the SIMD forms, so the generated
intrinsic names collide for distinct scalar kinds. -/
theorem llvm_numeric_8bit_collision (name : String) (simd : Bool) :
    llvm_numeric name ScalarKind.I8 simd = llvm_numeric name ScalarKind.I32 simd ∧
    llvm_numeric name ScalarKind.U8 simd = llvm_numeric name ScalarKind.U32 simd ∧
    ScalarKind.I8 ≠ ScalarKind.I32 ∧ ScalarKind.U8 ≠ ScalarKind.U32 ∧
    llvm_numeric "maxnum" ScalarKind.I8 false = "llvm.maxnum.i32" ∧
    llvm_numeric "maxnum" ScalarKind.I8 true = "llvm.maxnum.v4i32" ∧
    llvm_numeric "maxnum" ScalarKind.U8 true = "llvm.maxnum.v4i32" :=
  ⟨rfl, rfl, by decide, by decide, by decide, by decide, by decide⟩

/-- Witness for C10 at a concrete intrinsic base name in SIMD form. -/
theorem llvm_numeric_8bit_collision_w :
    llvm_numeric "ctlz" ScalarKind.I8 true = llvm_numeric "ctlz" ScalarKind.I32 true :=
  (llvm_numeric_8bit_collision "ctlz" true).1

end Weld
